import Mathlib

/-!
Shallow embedding of `src/ttrpgm/data.py`: the `Template` validators, the
`DataDashboard` record store (in-memory dict + JSON file with rename-based
backup), and the display-rendering transform `_html_data_display`.

Conventions of the embedding:
* Python `dict[str, V]` is an association list `List (String × V)` with the
  dict operations (`lookupD`, `insertD`, `popD`) mirroring `d[k]`,
  `d[k] = v` (replace in place, else append) and `d.pop(k, None)`.
* Python string methods `str.strip()` / `str.lower()` are modelled on the
  ASCII fragment (`pyStrip`, `pyLower`); all names occurring in the program
  and in the claims are ASCII.
* The filesystem seen by the store is the pair of the live JSON file and the
  `<stem>.backup` file, each either absent or holding a decoded mapping.
  `json.dump`/`json.load` of the external `json` library are modelled at the
  data level (file contents are the mapping they encode).
* External collaborators (the Markdown converter, the jinja render template)
  are parameters of the display function.
-/

namespace Ttrpgm

/-- A scalar JSON value stored in a record field: string, integer or null. -/
inductive Value where
  | str (s : String)
  | int (n : Int)
  | null
  deriving DecidableEq, Repr

/-- A record: mapping from field name to scalar value (a Python dict). -/
abbrev Rec := List (String × Value)

/-- The store contents: mapping from identity key to record (`self.data`). -/
abbrev Store := List (String × Rec)

/-- Python dict lookup `d.get(k)` / `k in d` backing: first matching key. -/
def lookupD {α : Type} : List (String × α) → String → Option α
  | [], _ => none
  | (k, v) :: rest, key => if k = key then some v else lookupD rest key

/-- Python dict assignment `d[k] = v`: replaces the value in place if the key
is present, otherwise appends a new entry at the end. -/
def insertD {α : Type} : List (String × α) → String → α → List (String × α)
  | [], key, v => [(key, v)]
  | (k, w) :: rest, key, v =>
      if k = key then (key, v) :: rest else (k, w) :: insertD rest key v

/-- Python `d.pop(k, None)`: the removed value (or `none`) and the remaining
dict. -/
def popD {α : Type} : List (String × α) → String → Option α × List (String × α)
  | [], _ => (none, [])
  | (k, w) :: rest, key =>
      if k = key then (some w, rest)
      else
        let r := popD rest key
        (r.1, (k, w) :: r.2)

/-- The whitespace characters recognised by Python `str.strip()` (ASCII). -/
def pyIsSpace (c : Char) : Bool :=
  c.toNat = 32 || c.toNat = 9 || c.toNat = 10 || c.toNat = 13 ||
    c.toNat = 11 || c.toNat = 12

/-- Python `str.strip()` on the character list: drop whitespace from both ends. -/
def pyStripList (l : List Char) : List Char :=
  ((l.dropWhile pyIsSpace).reverse.dropWhile pyIsSpace).reverse

/-- Python `str.strip()` (ASCII whitespace). -/
def pyStrip (s : String) : String := String.mk (pyStripList s.data)

/-- Python `str.lower()` on the ASCII fragment. -/
def pyLower (s : String) : String := String.mk (s.data.map Char.toLower)

/-- The normalization `name.strip().lower()` as used by `get_data` and `update_data`. -/
def stripLower (s : String) : String := pyLower (pyStrip s)

/-- The normalization `name.lower().strip()` as used by `check_data`. -/
def lowerStrip (s : String) : String := pyStrip (pyLower s)

/-- The filesystem slice the store touches: the live file
`data/<template name>.json` and the backup file `data/<template name>.backup`,
each absent or holding the mapping its JSON text encodes. -/
structure FS where
  file : Option Store
  backup : Option Store
  deriving DecidableEq, Repr

/-- The mutable state of a `DataDashboard`: `self.data` plus the filesystem. -/
structure DState where
  data : Store
  fs : FS
  deriving DecidableEq, Repr

/-- Source `DataDashboard.check_data`: `name = name.lower().strip()` then
`name in self.data`. -/
def check_data (d : Store) (name : String) : Bool :=
  (lookupD d (lowerStrip name)).isSome

/-- Source `DataDashboard.get_data`: `self.data[name.strip().lower()]`; `none` models
the `KeyError` raised when the key is absent. -/
def get_data (d : Store) (name : String) : Option Rec :=
  lookupD d (stripLower name)

/-- Source `DataDashboard.backup_database`: if the live file does not exist, warn
("nothing to backup") and return; otherwise unlink any prior backup and rename
the live file to `<stem>.backup`.  The returned `Bool` is true when the
warning was issued. -/
def backup_database (fs : FS) : FS × Bool :=
  match fs.file with
  | none => (fs, true)
  | some c => ({ file := none, backup := some c }, false)

/-- Source `DataDashboard.update_data`: normalize the name with `strip().lower()`,
assign `self.data[name] = values`, back up, then dump the whole mapping to the
live file.  There is no existence check: the operation is an unconditional
upsert. -/
def update_data (s : DState) (name : String) (values : Rec) : DState :=
  let d := insertD s.data (stripLower name) values
  let fs1 := (backup_database s.fs).1
  { data := d, fs := { fs1 with file := some d } }

/-- Source `DataDashboard.remove_data`: `self.data.pop(name, None)` — the raw `name`
argument, no normalization.  When the key is absent, warn and return without
touching the filesystem (the `Bool` is true when this warning was issued);
otherwise back up and dump the shrunken mapping. -/
def remove_data (s : DState) (name : String) : DState × Bool :=
  let r := popD s.data name
  match r.1 with
  | none => (s, true)
  | some _ =>
      let fs1 := (backup_database s.fs).1
      ({ data := r.2, fs := { fs1 with file := some r.2 } }, false)

/-- Outcome of the submit callback in `create_input_form.update` for add mode. -/
inductive SubmitOutcome where
  | duplicate
  | added
  deriving DecidableEq, Repr

/-- The add-mode path (`add_edit == 1`) of the `update` callback in
`DataDashboard.create_input_form`: when `self.check_data(data["name"])` holds
the callback reports "already exists, switch to edit mode" and does not call
`update_data`; otherwise it calls `self.update_data(data["name"], data)`. -/
def add_submit (s : DState) (name : String) (values : Rec) :
    SubmitOutcome × DState :=
  if check_data s.data name then (.duplicate, s)
  else (.added, update_data s name values)

/-- Source `DataDashboard.__init__` restricted to the store state: `self.data = {}`
unless the live file exists, in which case it is `json.load`ed. -/
def load_data (fs : FS) : Store :=
  match fs.file with
  | none => []
  | some c => c

/-- A field type of a template schema: `InputType` (TEXT, INTEGER, LONG_TEXT)
or `DropDownType(options)`. -/
inductive FieldT where
  | text
  | integer
  | long_text
  | dropdown (options : List String)
  deriving DecidableEq, Repr

/-- A validated `Template` (the pydantic model in `data.py`). -/
structure Template where
  name : String
  schema : List (String × FieldT)
  hidden_columns : List String
  group_count_columns : List String
  deriving DecidableEq, Repr

/-- Source `Template.normalise_schema_names`: rebuild the schema dict with every key
`strip().lower()`ed (later duplicates overwrite, dict insertion semantics),
then require `"name"` to be a key, raising `ValueError` — which pydantic
surfaces as a `ValidationError` — otherwise. -/
def normalise_schema_names (values : List (String × FieldT)) :
    Except String (List (String × FieldT)) :=
  let new_dict := values.foldl (fun d p => insertD d (stripLower p.1) p.2) []
  if (lookupD new_dict "name").isSome then .ok new_dict
  else .error "all templates must include a name variable"

/-- Source `Template.check_hidden_columns` (registered for both `hidden_columns` and
`group_count_columns`): each entry is `strip().lower()`ed and must be a key of
the already-normalized schema; the first absent entry raises `ValueError`
(pydantic: `ValidationError`), otherwise the list of normalized entries is
returned in order. -/
def check_hidden_columns (schema_keys : List String) :
    List String → Except String (List String)
  | [] => .ok []
  | name :: rest =>
      let n := stripLower name
      if n ∈ schema_keys then
        (check_hidden_columns schema_keys rest).map (fun l => n :: l)
      else .error "column not found in schema"

/-- Constructing a `Template` from raw field values: pydantic runs the
validators in field order (`name` normalize, `schema`, `hidden_columns`,
`group_count_columns`); the first `ValueError` makes construction fail with
a `ValidationError`. -/
def mkTemplate (name : String) (schema : List (String × FieldT))
    (hidden_columns group_count_columns : List String) :
    Except String Template :=
  match normalise_schema_names schema with
  | .error e => .error e
  | .ok sch =>
    match check_hidden_columns (sch.map Prod.fst) hidden_columns with
    | .error e => .error e
    | .ok hidden =>
      match check_hidden_columns (sch.map Prod.fst) group_count_columns with
      | .error e => .error e
      | .ok gcc =>
          .ok { name := stripLower name, schema := sch,
                hidden_columns := hidden, group_count_columns := gcc }

/-- Digits (with the Python single-underscore-between-digits rule) after the
first digit, accumulating the value. -/
def digitsCore (acc : Nat) : List Char → Option Nat
  | [] => some acc
  | c :: rest =>
      if c.isDigit then digitsCore (acc * 10 + (c.toNat - 48)) rest
      else
        match c, rest with
        | '_', d :: rest2 =>
            if d.isDigit then digitsCore (acc * 10 + (d.toNat - 48)) rest2
            else none
        | _, _ => none

/-- A nonempty ASCII digit sequence (Python decimal literal body). -/
def parseDigits : List Char → Option Nat
  | [] => none
  | c :: rest => if c.isDigit then digitsCore (c.toNat - 48) rest else none

/-- Python builtin `int(str)` on ASCII decimal literals: strip whitespace,
optional sign, digits; anything else raises `ValueError` (modelled `none`). -/
def pyIntOfString (s : String) : Option Int :=
  match pyStripList s.data with
  | '+' :: rest => (parseDigits rest).map Int.ofNat
  | '-' :: rest => (parseDigits rest).map (fun n => -(Int.ofNat n))
  | l => (parseDigits l).map Int.ofNat

/-- Python builtin `int(value)` on the values a record field can hold: an
`int` passes through, a `str` is parsed, `None` raises `TypeError` (the code
never reaches this case: `None` values are skipped). -/
def pyInt : Value → Option Int
  | .int n => some n
  | .str s => pyIntOfString s
  | .null => none

/-- One iteration of the loop in `DataDashboard._html_data_display` for entry
`(name, value)`: `type_ = self.template.schema.get(name)`; skip when the type
is absent or the value is `None`; LONG_TEXT values go through
`markdown.markdown` (requires a string, else `TypeError`); INTEGER values
through `int(...)`; all other values are left verbatim. -/
def display_step (md : String → String) (schema : List (String × FieldT))
    (name : String) (value : Value) : Option Value :=
  match lookupD schema name with
  | none => some value
  | some t =>
      match value with
      | .null => some .null
      | v =>
          match t with
          | .long_text =>
              match v with
              | .str s => some (.str (md s))
              | _ => none
          | .integer => (pyInt v).map Value.int
          | _ => some v

/-- The `for name, value in data.items():` loop of `_html_data_display`:
iterate over the items of the copied dict, assigning transformed values back
into it (`data[name] = ...`). -/
def display_loop (md : String → String) (schema : List (String × FieldT)) :
    List (String × Value) → Rec → Option Rec
  | [], d => some d
  | (name, value) :: rest, d =>
      match display_step md schema name value with
      | none => none
      | some v => display_loop md schema rest (insertD d name v)

/-- Source `DataDashboard._html_data_display`: copy the record, transform each field
by its schema type, render through the external display template.  `md` is the
external `markdown.markdown` converter and `render` the render method of
the jinja display template. -/
def html_data_display (md : String → String) (render : Rec → String)
    (schema : List (String × FieldT)) (data : Rec) : Option String :=
  (display_loop md schema data data).map render

/-- A mutating store operation: `update_data` or `remove_data`. -/
inductive Mut where
  | upd (name : String) (values : Rec)
  | rem (name : String)
  deriving DecidableEq, Repr

/-- Run one mutator; the `Bool` is true when the mutator succeeded (for
`remove_data`: the key was present, so a backup-and-write happened;
`update_data` always succeeds). -/
def apply_mut (s : DState) : Mut → DState × Bool
  | .upd name values => (update_data s name values, true)
  | .rem name =>
      let r := remove_data s name
      (r.1, !r.2)

/-- Specification-side per-field display transform, following §4.3 of the
spec: LONG_TEXT values go through the Markdown converter, INTEGER values are
coerced to an integer, all other values pass through verbatim (null values
are untouched).  Compared against the loop of `_html_data_display`. -/
def display_value_spec (md : String → String) (schema : List (String × FieldT))
    (name : String) (v : Value) : Option Value :=
  if v = .null then some v
  else
    match lookupD schema name with
    | some .long_text =>
        match v with
        | .str s => some (.str (md s))
        | _ => none
    | some .integer => (pyInt v).map Value.int
    | _ => some v

/-- Specification-side rendering input: each field transformed independently
of the others, in order. -/
def display_fieldwise_spec (md : String → String)
    (schema : List (String × FieldT)) : Rec → Option Rec
  | [] => some []
  | (n, v) :: rest =>
      match display_value_spec md schema n v,
          display_fieldwise_spec md schema rest with
      | some w, some ts => some ((n, w) :: ts)
      | _, _ => none

/-- Concrete record used by the witnesses, after the worked example in §8. -/
def rec_goblin : Rec := [("name", Value.str "Goblin"), ("health", Value.str "10")]

/-- A record stored under the key `x`. -/
def rec_x : Rec := [("name", Value.str "x")]

/-- A store over a nonexistent file (fresh `DataDashboard`). -/
def empty_state : DState :=
  { data := [], fs := { file := none, backup := none } }

/-- A store holding one record under the normalized key `goblin`, with the
live file in sync. -/
def goblin_state : DState :=
  { data := [("goblin", rec_goblin)],
    fs := { file := some [("goblin", rec_goblin)], backup := none } }

/-- The state after one `update_data` of `rec_x` under `a` on a fresh store. -/
def up1_state : DState := (apply_mut empty_state (Mut.upd "a" rec_x)).1

section DictLemmas

variable {α : Type}

theorem lookupD_insertD (d : List (String × α)) (key key2 : String) (v : α) :
    lookupD (insertD d key v) key2 =
      if key = key2 then some v else lookupD d key2 := by
  induction d with
  | nil => by_cases h : key = key2 <;> simp [insertD, lookupD, h]
  | cons p rest ih =>
    obtain ⟨a, b⟩ := p
    by_cases hak : a = key
    · subst hak
      by_cases hk : a = key2 <;> simp [insertD, lookupD, hk]
    · by_cases hkey : a = key2
      · subst hkey
        have : ¬key = a := fun h => hak h.symm
        simp [insertD, lookupD, hak, this]
      · simp [insertD, lookupD, hak, hkey, ih]

theorem insertD_of_lookupD_none (d : List (String × α)) (key : String) (v : α)
    (h : lookupD d key = none) : insertD d key v = d ++ [(key, v)] := by
  induction d with
  | nil => rfl
  | cons p rest ih =>
    obtain ⟨a, b⟩ := p
    by_cases hak : a = key
    · simp [lookupD, hak] at h
    · simp [lookupD, hak] at h
      simp [insertD, hak, ih h]

theorem popD_fst (d : List (String × α)) (key : String) :
    (popD d key).1 = lookupD d key := by
  induction d with
  | nil => rfl
  | cons p rest ih =>
    obtain ⟨a, b⟩ := p
    by_cases hak : a = key <;> simp [popD, lookupD, hak, ih]

theorem popD_of_lookupD_none (d : List (String × α)) (key : String)
    (h : lookupD d key = none) : popD d key = (none, d) := by
  induction d with
  | nil => rfl
  | cons p rest ih =>
    obtain ⟨a, b⟩ := p
    by_cases hak : a = key
    · simp [lookupD, hak] at h
    · simp [lookupD, hak] at h
      simp [popD, hak, ih h]

theorem popD_length (d : List (String × α)) (key : String) (v : α)
    (h : lookupD d key = some v) : (popD d key).2.length + 1 = d.length := by
  induction d with
  | nil => simp [lookupD] at h
  | cons p rest ih =>
    obtain ⟨a, b⟩ := p
    by_cases hak : a = key
    · simp [popD, hak]
    · simp [lookupD, hak] at h
      simp [popD, hak, ih h]

theorem insertD_append (xs ys : List (String × α)) (key : String) (v w : α)
    (h : key ∉ xs.map Prod.fst) :
    insertD (xs ++ (key, v) :: ys) key w = xs ++ (key, w) :: ys := by
  induction xs with
  | nil => simp [insertD]
  | cons p rest ih =>
    obtain ⟨a, b⟩ := p
    simp only [List.map_cons, List.mem_cons] at h
    push_neg at h
    have : ¬a = key := fun hh => h.1 hh.symm
    simp [insertD, this, ih h.2]

theorem lookupD_foldl_insertD {β : Type} (f : β → String) (g : β → α)
    (l : List β) (d0 : List (String × α)) (key : String) :
    (lookupD (l.foldl (fun d p => insertD d (f p) (g p)) d0) key).isSome =
      ((lookupD d0 key).isSome || l.any (fun p => f p = key)) := by
  induction l generalizing d0 with
  | nil => simp
  | cons p rest ih =>
    simp only [List.foldl_cons, List.any_cons]
    rw [ih]
    by_cases h : f p = key
    · simp [lookupD_insertD, h]
    · simp [lookupD_insertD, h]

end DictLemmas

theorem toNat_ofNat_lt (n : Nat) (h : n < 0xd800) : (Char.ofNat n).toNat = n := by
  rw [Char.ofNat, dif_pos (Or.inl h : n.isValidChar)]
  rfl

theorem pyIsSpace_toLower (c : Char) : pyIsSpace (Char.toLower c) = pyIsSpace c := by
  by_cases h : c.toNat ≥ 65 ∧ c.toNat ≤ 90
  · have hl : Char.toLower c = Char.ofNat (c.toNat + 32) := by
      unfold Char.toLower
      exact if_pos h
    have hv : (Char.ofNat (c.toNat + 32)).toNat = c.toNat + 32 :=
      toNat_ofNat_lt _ (by omega)
    have h1 : pyIsSpace (Char.ofNat (c.toNat + 32)) = false := by
      simp [pyIsSpace, hv]; omega
    have h2 : pyIsSpace c = false := by
      simp [pyIsSpace]; omega
    rw [hl, h1, h2]
  · have hl : Char.toLower c = c := by
      unfold Char.toLower
      exact if_neg h
    rw [hl]

theorem pyStripList_map_toLower (l : List Char) :
    pyStripList (l.map Char.toLower) = (pyStripList l).map Char.toLower := by
  have hf : (fun c => pyIsSpace (Char.toLower c)) = pyIsSpace := by
    funext c; exact pyIsSpace_toLower c
  simp [pyStripList, List.dropWhile_map, hf, Function.comp_def, ← List.map_reverse]

/-- Stripping and (ASCII) lowering commute, so the two normalization orders that
occur in the source (`check_data` vs `get_data`/`update_data`) agree. -/
theorem stripLower_eq_lowerStrip (s : String) : stripLower s = lowerStrip s := by
  simp [stripLower, lowerStrip, pyStrip, pyLower, pyStripList_map_toLower]

/-- Every successful mutator leaves the live file holding exactly the
in-memory mapping (`json.dump(self.data, file)` is its last step). -/
theorem apply_mut_file (s s' : DState) (m : Mut)
    (h : apply_mut s m = (s', true)) : s'.fs.file = some s'.data := by
  cases m with
  | upd name values =>
    simp only [apply_mut, Prod.mk.injEq] at h
    rw [← h.1]
    simp [update_data]
  | rem name =>
    rcases hp : (popD s.data name).1 with _ | v
    · simp [apply_mut, remove_data, hp] at h
    · simp only [apply_mut, remove_data, hp, Bool.not_false, Prod.mk.injEq] at h
      rw [← h.1]

/-- The backup slot of every successful mutator is the one produced by
`backup_database` on the pre-state filesystem. -/
theorem apply_mut_backup (s s' : DState) (m : Mut)
    (h : apply_mut s m = (s', true)) :
    s'.fs.backup = (backup_database s.fs).1.backup := by
  cases m with
  | upd name values =>
    simp only [apply_mut, Prod.mk.injEq] at h
    rw [← h.1]
    simp [update_data]
  | rem name =>
    rcases hp : (popD s.data name).1 with _ | v
    · simp [apply_mut, remove_data, hp] at h
    · simp only [apply_mut, remove_data, hp, Bool.not_false, Prod.mk.injEq] at h
      rw [← h.1]

/-- Characterization of `normalise_schema_names`: the membership test on the
rebuilt dict is the existence of a declared key normalizing to `name`. -/
theorem normalise_schema_names_name_mem (values : List (String × FieldT)) :
    (lookupD (values.foldl (fun d p => insertD d (stripLower p.1) p.2) [])
        "name").isSome =
      values.any (fun p => stripLower p.1 = "name") := by
  have := lookupD_foldl_insertD (fun p : String × FieldT => stripLower p.1)
    (fun p => p.2) values [] "name"
  simpa [lookupD] using this

/-- Characterization of `check_hidden_columns`: success iff every entry
normalizes into the schema keys, and the result is the normalized list. -/
theorem check_hidden_columns_eq (sk : List String) (values : List String) :
    check_hidden_columns sk values =
      if values.all (fun v => decide (stripLower v ∈ sk)) then
        .ok (values.map stripLower)
      else .error "column not found in schema" := by
  induction values with
  | nil => rfl
  | cons v rest ih =>
    by_cases h : stripLower v ∈ sk
    · rw [check_hidden_columns, if_pos h, ih]
      by_cases h2 : rest.all (fun v => decide (stripLower v ∈ sk)) <;>
        simp [h, h2, Except.map]
    · rw [check_hidden_columns, if_neg h]
      simp [h]

/-- The loop body of `_html_data_display` computes exactly the
per-field transform of the specification. -/
theorem display_step_eq_spec (md : String → String)
    (schema : List (String × FieldT)) (name : String) (v : Value) :
    display_step md schema name v = display_value_spec md schema name v := by
  cases hl : lookupD schema name with
  | none => cases v <;> simp [display_step, display_value_spec, hl]
  | some t => cases t <;> cases v <;>
      simp [display_step, display_value_spec, hl, pyInt]

/-- The in-place update loop of `_html_data_display`, started on a copy of
the record, equals the independent field-by-field transform, provided the
keys of the record are distinct (always true of a Python dict). -/
theorem display_loop_append (md : String → String)
    (schema : List (String × FieldT)) (todo : Rec) :
    ∀ done : Rec, ((done ++ todo).map Prod.fst).Nodup →
      display_loop md schema todo (done ++ todo) =
        (display_fieldwise_spec md schema todo).map (fun ts => done ++ ts) := by
  induction todo with
  | nil => intro done h; simp [display_loop, display_fieldwise_spec]
  | cons p rest ih =>
    intro done h
    obtain ⟨n, v⟩ := p
    have hmap : (done ++ (n, v) :: rest).map Prod.fst =
        done.map Prod.fst ++ n :: rest.map Prod.fst := by simp
    rw [hmap] at h
    have hnotin : n ∉ done.map Prod.fst := by
      rcases List.nodup_append.mp h with ⟨-, -, hdisj⟩
      exact fun hmem => hdisj hmem (List.mem_cons_self n _)
    rw [display_loop, display_step_eq_spec]
    cases hs : display_value_spec md schema n v with
    | none => simp [display_fieldwise_spec, hs]
    | some w =>
      dsimp only
      rw [insertD_append done rest n v w hnotin]
      have hrw : done ++ (n, w) :: rest = (done ++ [(n, w)]) ++ rest := by simp
      have hnd2 : (((done ++ [(n, w)]) ++ rest).map Prod.fst).Nodup := by
        simpa using h
      rw [hrw, ih (done ++ [(n, w)]) hnd2]
      cases hrest : display_fieldwise_spec md schema rest with
      | none => simp [display_fieldwise_spec, hs, hrest]
      | some ts => simp [display_fieldwise_spec, hs, hrest]

/-- C1: when the normalized identity of `name` is already a key of the store,
the add path of the submit callback reports a duplicate ("already exists,
switch to edit mode"), does not call `update_data`, and the store still maps
that identity to the value it held before the call. -/
theorem add_duplicate_rejected (s : DState) (name : String) (v values : Rec)
    (h : lookupD s.data (lowerStrip name) = some v) :
    add_submit s name values = (.duplicate, s) ∧
    lookupD (add_submit s name values).2.data (lowerStrip name) = some v := by
  have hc : check_data s.data name = true := by simp [check_data, h]
  refine ⟨?_, ?_⟩
  · simp [add_submit, hc]
  · simp [add_submit, hc, h]

/-- C1 witness: adding under `" GOBLIN "` while `goblin` is stored. -/
theorem add_duplicate_rejected_witness :
    lookupD goblin_state.data (lowerStrip " GOBLIN ") = some rec_goblin ∧
    add_submit goblin_state " GOBLIN " [] = (.duplicate, goblin_state) :=
  ⟨rfl, (add_duplicate_rejected goblin_state " GOBLIN " rec_goblin [] rfl).1⟩

/-- C2 counterexample: `update_data` of a name absent from the store does not
fail — it inserts a new entry (the claim says it fails with `NotFoundError`
and does not insert). -/
theorem update_missing_does_insert :
    lookupD empty_state.data (stripLower "x") = none ∧
    lookupD (update_data empty_state "x" rec_x).data (stripLower "x") =
      some rec_x :=
  ⟨rfl, rfl⟩

/-- C2 amended: `update_data` on a name whose normalized identity is not a
key is an unconditional upsert: it inserts the record under the normalized
identity, growing the store by one entry, and persists the new mapping; no
`NotFoundError` is raised and the store is not left unchanged. -/
theorem update_missing_upserts (s : DState) (name : String) (values : Rec)
    (h : lookupD s.data (stripLower name) = none) :
    lookupD (update_data s name values).data (stripLower name) = some values ∧
    (update_data s name values).data.length = s.data.length + 1 ∧
    (update_data s name values).fs.file = some (update_data s name values).data := by
  refine ⟨?_, ?_, ?_⟩
  · simp [update_data, lookupD_insertD]
  · simp [update_data, insertD_of_lookupD_none _ _ _ h]
  · simp [update_data]

/-- C2 amended witness: updating `x` on a fresh store. -/
theorem update_missing_upserts_witness :
    lookupD empty_state.data (stripLower "x") = none ∧
    lookupD (update_data empty_state "x" rec_x).data (stripLower "x") =
      some rec_x :=
  ⟨rfl, (update_missing_upserts empty_state "x" rec_x rfl).1⟩

/-- C3 counterexample: identities do not collapse punctuation to
underscores.  After storing under `a_b`, `check_data` is false for `a.b`
even though the two names differ only in punctuation, which the claim says
must map to the same key. -/
theorem identity_collapse_cex :
    check_data (update_data empty_state "a_b" rec_x).data "a_b" = true ∧
    check_data (update_data empty_state "a_b" rec_x).data "a.b" = false :=
  ⟨rfl, rfl⟩

/-- C3 amended: the storage identity is exactly the trimmed, lower-cased
form of the name — no whitespace/punctuation-to-underscore collapsing.
Adding under a name makes `exists` of that name true; two names with equal
trimmed lower-cased forms (differing only in case or surrounding
whitespace) map to the same key; in particular adding under `Goblin` makes
`exists("goblin")` true. -/
theorem identity_is_trimmed_lowercased :
    (∀ (s : DState) (name : String) (values : Rec),
        check_data (update_data s name values).data name = true) ∧
    (∀ (d : Store) (n1 n2 : String), stripLower n1 = stripLower n2 →
        check_data d n1 = check_data d n2) ∧
    check_data (update_data empty_state "Goblin" rec_goblin).data "goblin" =
      true := by
  refine ⟨?_, ?_, rfl⟩
  · intro s name values
    simp [check_data, update_data, ← stripLower_eq_lowerStrip, lookupD_insertD]
  · intro d n1 n2 h
    simp [check_data, ← stripLower_eq_lowerStrip, h]

/-- C3 amended witness: `" GOBLIN "` and `"goblin"` have the same trimmed
lower-cased form, so `check_data` agrees on them. -/
theorem identity_is_trimmed_lowercased_witness :
    stripLower " GOBLIN " = stripLower "goblin" ∧
    check_data goblin_state.data " GOBLIN " =
      check_data goblin_state.data "goblin" :=
  ⟨rfl, identity_is_trimmed_lowercased.2.1 goblin_state.data " GOBLIN "
    "goblin" rfl⟩

/-- C4: `remove_data` looks its argument up without normalization.  A name
that is not literally a key (even if its trimmed lower-cased form is one)
warns and leaves the state — in-memory mapping and files — unchanged; an
exact match deletes exactly one entry and reports no warning. -/
theorem remove_requires_exact_key (s : DState) (name : String) :
    (lookupD s.data name = none → remove_data s name = (s, true)) ∧
    (∀ v, lookupD s.data name = some v →
        (remove_data s name).2 = false ∧
        (remove_data s name).1.data.length + 1 = s.data.length) := by
  refine ⟨?_, ?_⟩
  · intro h
    have hp := popD_fst s.data name
    rw [h] at hp
    simp [remove_data, hp]
  · intro v h
    have hp := popD_fst s.data name
    rw [h] at hp
    refine ⟨?_, ?_⟩
    · simp [remove_data, hp]
    · simp only [remove_data, hp]
      exact popD_length s.data name v h

/-- C4 witness: `"Goblin"` is not literally a key even though its normalized
form `goblin` is, so `remove_data` is a warning no-op. -/
theorem remove_requires_exact_key_witness :
    lookupD goblin_state.data "Goblin" = none ∧
    check_data goblin_state.data "Goblin" = true ∧
    remove_data goblin_state "Goblin" = (goblin_state, true) :=
  ⟨rfl, rfl, (remove_requires_exact_key goblin_state "Goblin").1 rfl⟩

/-- C5: the backup cycle of every mutator.  `backup_database` skips with a
warning when no live file exists, and otherwise renames the live file to the
`.backup` slot (replacing any prior backup); consequently, after two
consecutive successful mutators the backup holds exactly the on-disk state
as it was after the first mutator. -/
theorem backup_one_generation_behind :
    (∀ fs : FS, fs.file = none → backup_database fs = (fs, true)) ∧
    (∀ (fs : FS) (c : Store), fs.file = some c →
        backup_database fs = ({ file := none, backup := some c }, false)) ∧
    (∀ (s s1 s2 : DState) (m1 m2 : Mut),
        apply_mut s m1 = (s1, true) → apply_mut s1 m2 = (s2, true) →
        s2.fs.backup = s1.fs.file) := by
  refine ⟨?_, ?_, ?_⟩
  · intro fs h
    simp [backup_database, h]
  · intro fs c h
    simp [backup_database, h]
  · intro s s1 s2 m1 m2 h1 h2
    have hf1 : s1.fs.file = some s1.data := apply_mut_file s s1 m1 h1
    have hb2 : s2.fs.backup = (backup_database s1.fs).1.backup :=
      apply_mut_backup s1 s2 m2 h2
    rw [hb2]
    simp [backup_database, hf1]

/-- C5 witness: two updates on a fresh store; the backup after the second
equals the live file after the first. -/
theorem backup_one_generation_behind_witness :
    apply_mut empty_state (Mut.upd "a" rec_x) = (up1_state, true) ∧
    (apply_mut up1_state (Mut.upd "b" rec_x)).1.fs.backup = up1_state.fs.file :=
  ⟨rfl, backup_one_generation_behind.2.2 empty_state up1_state
    (apply_mut up1_state (Mut.upd "b" rec_x)).1 (Mut.upd "a" rec_x)
    (Mut.upd "b" rec_x) rfl rfl⟩

/-- C6: persistence round-trip — after any successful mutator, constructing
a new store from the same file path (`__init__` reads the live file) yields
an in-memory mapping equal to the mapping of the mutated store. -/
theorem reopen_roundtrip (s s' : DState) (m : Mut)
    (h : apply_mut s m = (s', true)) : load_data s'.fs = s'.data := by
  have hf := apply_mut_file s s' m h
  simp [load_data, hf]

/-- C6 witness: reopening after one update of a fresh store. -/
theorem reopen_roundtrip_witness :
    apply_mut empty_state (Mut.upd "a" rec_x) = (up1_state, true) ∧
    load_data up1_state.fs = up1_state.data :=
  ⟨rfl, reopen_roundtrip empty_state up1_state (Mut.upd "a" rec_x) rfl⟩

/-- C7: removing a name absent from the store is a non-fatal no-op: only the
`RuntimeWarning` is issued, and the contents, size, and backing files of
the store are all exactly as before. -/
theorem remove_missing_is_noop (s : DState) (name : String)
    (h : lookupD s.data name = none) :
    remove_data s name = (s, true) := by
  have hp := popD_fst s.data name
  rw [h] at hp
  simp [remove_data, hp]

/-- C7 witness: removing `dragon` from the one-record store. -/
theorem remove_missing_is_noop_witness :
    lookupD goblin_state.data "dragon" = none ∧
    remove_data goblin_state "dragon" = (goblin_state, true) :=
  ⟨rfl, remove_missing_is_noop goblin_state "dragon" rfl⟩

theorem name_mem_iff (values : List (String × FieldT)) :
    (lookupD (values.foldl (fun d p => insertD d (stripLower p.1) p.2) [])
        "name").isSome =
      decide ("name" ∈ values.map fun p => stripLower p.1) := by
  rw [normalise_schema_names_name_mem]
  by_cases hm : "name" ∈ values.map fun p => stripLower p.1
  · rw [decide_eq_true hm]
    obtain ⟨p, hp, he⟩ := List.mem_map.mp hm
    exact List.any_eq_true.mpr ⟨p, hp, by simp [he]⟩
  · rw [decide_eq_false hm, List.any_eq_false]
    intro p hp
    simp only [decide_eq_true_eq]
    intro he
    exact hm (List.mem_map.mpr ⟨p, hp, he⟩)

/-- C8: a declared schema none of whose keys normalizes (trim + lowercase)
to `name` makes `normalise_schema_names` raise — and `Template` construction
fail with a `ValidationError` — while a schema with some key normalizing to
`name` (for instance `" Name "`) passes this check. -/
theorem template_schema_requires_name (values : List (String × FieldT)) :
    (("name" ∉ values.map fun p => stripLower p.1) →
        normalise_schema_names values =
          .error "all templates must include a name variable") ∧
    (("name" ∈ values.map fun p => stripLower p.1) →
        ∃ d, normalise_schema_names values = .ok d) ∧
    (∀ (nm : String) (hid gcc : List String),
        ("name" ∉ values.map fun p => stripLower p.1) →
        ∃ e, mkTemplate nm values hid gcc = .error e) := by
  have hkey := name_mem_iff values
  refine ⟨?_, ?_, ?_⟩
  · intro h
    rw [normalise_schema_names]
    simp [hkey, h]
  · intro h
    refine ⟨values.foldl (fun d p => insertD d (stripLower p.1) p.2) [], ?_⟩
    rw [normalise_schema_names]
    simp [hkey, h]
  · intro nm hid gcc h
    refine ⟨"all templates must include a name variable", ?_⟩
    have herr : normalise_schema_names values =
        .error "all templates must include a name variable" := by
      rw [normalise_schema_names]
      simp [hkey, h]
    rw [mkTemplate, herr]

/-- C8 witness: a schema whose only key is `" Name "` passes the check; a
schema with only `health` fails construction. -/
theorem template_schema_requires_name_witness :
    ("name" ∈ [(" Name ", FieldT.text)].map fun p => stripLower p.1) ∧
    (∃ d, normalise_schema_names [(" Name ", FieldT.text)] = .ok d) ∧
    ("name" ∉ [("health", FieldT.integer)].map fun p => stripLower p.1) ∧
    (∃ e, mkTemplate "m" [("health", FieldT.integer)] [] [] = .error e) := by
  have hin : "name" ∈ [(" Name ", FieldT.text)].map fun p => stripLower p.1 := by
    simp only [List.map_cons, List.map_nil]
    exact List.mem_singleton.mpr (by rfl)
  have hout : "name" ∉ [("health", FieldT.integer)].map fun p => stripLower p.1 := by
    simp only [List.map_cons, List.map_nil]
    intro hmem
    rw [List.mem_singleton] at hmem
    exact absurd hmem (by decide)
  exact ⟨hin, (template_schema_requires_name _).2.1 hin, hout,
    (template_schema_requires_name _).2.2 "m" [] [] hout⟩

/-- C9: every `hidden_columns` / `group_count_columns` entry is trimmed and
lower-cased and required to be a key of the normalized schema.  A successful
construction stores exactly the normalized column lists (all of them schema
keys); an entry whose normalized form is absent from the schema keys makes
construction fail with a `ValidationError`. -/
theorem hidden_columns_validated (nm : String) (sch : List (String × FieldT))
    (hid gcc : List String) :
    (∀ t, mkTemplate nm sch hid gcc = .ok t →
        t.hidden_columns = hid.map stripLower ∧
        t.group_count_columns = gcc.map stripLower ∧
        (∀ v ∈ hid, stripLower v ∈ t.schema.map Prod.fst) ∧
        (∀ v ∈ gcc, stripLower v ∈ t.schema.map Prod.fst)) ∧
    (∀ d, normalise_schema_names sch = .ok d →
        ((∃ v ∈ hid, stripLower v ∉ d.map Prod.fst) ∨
         (∃ v ∈ gcc, stripLower v ∉ d.map Prod.fst)) →
        ∃ e, mkTemplate nm sch hid gcc = .error e) := by
  refine ⟨?_, ?_⟩
  · intro t h
    rw [mkTemplate] at h
    rcases hsch : normalise_schema_names sch with e | d
    · rw [hsch] at h
      exact Except.noConfusion h
    · rw [hsch] at h
      dsimp only at h
      rw [check_hidden_columns_eq] at h
      by_cases h1 : hid.all (fun v => decide (stripLower v ∈ d.map Prod.fst)) = true
      · rw [if_pos h1] at h
        dsimp only at h
        rw [check_hidden_columns_eq] at h
        by_cases h2 : gcc.all (fun v => decide (stripLower v ∈ d.map Prod.fst)) = true
        · rw [if_pos h2] at h
          dsimp only at h
          cases h
          refine ⟨rfl, rfl, ?_, ?_⟩
          · intro v hv
            have := List.all_eq_true.mp h1 v hv
            simpa using this
          · intro v hv
            have := List.all_eq_true.mp h2 v hv
            simpa using this
        · rw [if_neg h2] at h
          exact Except.noConfusion h
      · rw [if_neg h1] at h
        exact Except.noConfusion h
  · intro d hsch hbad
    have hchar : ∀ l : List String, (∃ v ∈ l, stripLower v ∉ d.map Prod.fst) →
        l.all (fun v => decide (stripLower v ∈ d.map Prod.fst)) = false := by
      rintro l ⟨v, hv, hnot⟩
      exact List.all_eq_false.mpr ⟨v, hv, by simpa using hnot⟩
    refine ⟨"column not found in schema", ?_⟩
    rw [mkTemplate, hsch]
    dsimp only
    rw [check_hidden_columns_eq]
    by_cases h1 : hid.all (fun v => decide (stripLower v ∈ d.map Prod.fst)) = true
    · have hgccbad : ∃ v ∈ gcc, stripLower v ∉ d.map Prod.fst := by
        rcases hbad with hb | hb
        · exfalso
          obtain ⟨v, hv, hnot⟩ := hb
          have := List.all_eq_true.mp h1 v hv
          exact hnot (by simpa using this)
        · exact hb
      have h2 : ¬gcc.all (fun v => decide (stripLower v ∈ d.map Prod.fst)) = true := by
        rw [hchar gcc hgccbad]
        simp
      rw [if_pos h1]
      dsimp only
      rw [check_hidden_columns_eq, if_neg h2]
    · rw [if_neg h1]

/-- The template built by the C9 witness. -/
def template_ex : Template :=
  { name := "monster",
    schema := [("name", FieldT.text), ("notes", FieldT.long_text)],
    hidden_columns := ["notes"], group_count_columns := [] }

/-- C9 witness: a template whose hidden column `" NOTES "` normalizes into
the schema; the stored list is the normalized one. -/
theorem hidden_columns_validated_witness :
    mkTemplate "Monster" [("Name", FieldT.text), ("Notes", FieldT.long_text)]
      [" NOTES "] [] = .ok template_ex ∧
    template_ex.hidden_columns = [" NOTES "].map stripLower :=
  ⟨rfl,
    ((hidden_columns_validated "Monster"
      [("Name", FieldT.text), ("Notes", FieldT.long_text)] [" NOTES "] []).1
      template_ex rfl).1⟩

/-- C10: `_html_data_display` is a pure transform of (record, template
schema, external render template) to a string: it copies the record (the
input value is never mutated — the embedding is a function of the record
value) and the copy handed to `render` is exactly the independent per-field
transform in which LONG_TEXT values are passed through the Markdown
converter, INTEGER values are coerced with `int(...)`, and all other values
pass through verbatim. -/
theorem html_display_pure_transform (md : String → String)
    (render : Rec → String) (schema : List (String × FieldT)) (data : Rec)
    (h : (data.map Prod.fst).Nodup) :
    html_data_display md render schema data =
      (display_fieldwise_spec md schema data).map render := by
  rw [html_data_display]
  have hloop := display_loop_append md schema data [] (by simpa using h)
  simp only [List.nil_append] at hloop
  rw [hloop]
  cases display_fieldwise_spec md schema data <;> simp

/-- Markdown converter stand-in used by the C10 witness. -/
def md_ex : String → String := fun s => "<p>" ++ s ++ "</p>"

/-- Render-template stand-in used by the C10 witness: substitutes the
`notes` field. -/
def render_ex : Rec → String := fun r =>
  match lookupD r "notes" with
  | some (.str s) => s
  | _ => ""

/-- Schema used by the C10 witness. -/
def schema_ex : List (String × FieldT) :=
  [("name", FieldT.text), ("notes", FieldT.long_text),
   ("health", FieldT.integer)]

/-- Record used by the C10 witness. -/
def data_ex : Rec :=
  [("name", Value.str "Goblin"), ("notes", Value.str "Sneaky"),
   ("health", Value.str "10")]

/-- C10 witness: on a concrete record the rendering equals the fieldwise
transform, and evaluates to the markdown-converted `notes` field. -/
theorem html_display_pure_transform_witness :
    (data_ex.map Prod.fst).Nodup ∧
    html_data_display md_ex render_ex schema_ex data_ex =
      (display_fieldwise_spec md_ex schema_ex data_ex).map render_ex ∧
    html_data_display md_ex render_ex schema_ex data_ex =
      some "<p>Sneaky</p>" :=
  ⟨by decide,
   html_display_pure_transform md_ex render_ex schema_ex data_ex (by decide),
   rfl⟩

end Ttrpgm
